import Mathlib

/-!
Verification of the kinradar depth-frame projection and spatial-binning engine.

The embedding models the C source of kinradar.c: the range lookup table,
the world projector (xworld, yworld), the grid binner (xyworld_to_grid,
zworld_to_grid, grid population updates inside the depth callback), the
border annotator (draw_grid_border), the cell renderer (print_cell,
print_grid scale selection, set_color), and the per-frame orchestration of
the depth callback.

Modelling conventions:
- C float arithmetic is modelled by exact rational arithmetic over the
  rational numbers; the empirical calibration curve of init_lut is modelled
  over the real numbers since it uses the tangent function.  A concrete
  float lookup table is a rational-valued function, so the state carries
  depth_lut as a function from codes to rationals.
- C int values are modelled by integers; the C cast from float to int
  truncates toward zero, modelled by cint below; C integer division
  truncates toward zero, modelled by Int.tdiv.
- The grid population buffer is modelled as a total function from pairs of
  integer indices to integers, so writes through any computed index,
  including an out-of-bounds one, are observable.
- abort() in draw_grid_border is modelled by Option: none is the aborted
  session.
-/

namespace Kinradar

/-- FREENECT_FRAME_W from libfreenect: frame width in pixels. -/
def FREENECT_FRAME_W : ℤ := 640

/-- FREENECT_FRAME_H from libfreenect: frame height in pixels. -/
def FREENECT_FRAME_H : ℤ := 480

/-- FREENECT_FRAME_PIX: total pixels of a full frame. -/
def FREENECT_FRAME_PIX : ℤ := FREENECT_FRAME_W * FREENECT_FRAME_H

/-- The C cast (int)q of a float value: truncation toward zero. -/
def cint (q : ℚ) : ℤ := if q < 0 then -⌊-q⌋ else ⌊q⌋

/-- DPT(buf, x, y) = buf[y * FREENECT_FRAME_W + x]. -/
def DPT (buf : ℤ → ℕ) (x y : ℤ) : ℕ := buf (y * FREENECT_FRAME_W + x)

/-- struct grid_info.  The population buffer is a total function of the two
indices; udiv columns and vdiv rows are the intended bounds. -/
structure GridInfo where
  udiv : ℤ
  vdiv : ℤ
  zmin : ℚ
  zmax : ℚ
  wmax : ℚ
  gridpop : ℤ → ℤ → ℤ
  popmax : ℤ

/-- FREENECT_FRAME_W / 2 as computed in C integer arithmetic. -/
def half_w : ℤ := FREENECT_FRAME_W / 2

/-- xworld: (float)(FREENECT_FRAME_W / 2 - x) * (.70021f / (FREENECT_FRAME_W / 2)) * z. -/
def xworld (x : ℤ) (z : ℚ) : ℚ :=
  ((half_w - x : ℤ) : ℚ) * ((0.70021 : ℚ) / (half_w : ℚ)) * z

/-- yworld: xworld(y + (FREENECT_FRAME_W - FREENECT_FRAME_H) / 2, z). -/
def yworld (y : ℤ) (z : ℚ) : ℚ :=
  xworld (y + (FREENECT_FRAME_W - FREENECT_FRAME_H) / 2) z

/-- xyworld_to_grid: (int)((w + grid->wmax) * grid->udiv / (2.0f * grid->wmax)). -/
def xyworld_to_grid (g : GridInfo) (w : ℚ) : ℤ :=
  cint ((w + g.wmax) * (g.udiv : ℚ) / (2 * g.wmax))

/-- zworld_to_grid: truncating conversion followed by the two sequential
clamping tests of the C source. -/
def zworld_to_grid (g : GridInfo) (z : ℚ) : ℤ :=
  let val := cint ((z - g.zmin) * (g.vdiv : ℚ) / (g.zmax - g.zmin))
  let val2 := if val < 0 then 0 else val
  if val2 ≥ g.vdiv then g.vdiv - 1 else val2

/-- zgrid_to_world: zg * (grid->zmax - grid->zmin) / grid->vdiv + grid->zmin. -/
def zgrid_to_world (g : GridInfo) (zg : ℤ) : ℚ :=
  (zg : ℚ) * (g.zmax - g.zmin) / (g.vdiv : ℚ) + g.zmin

/-- The foreground substitution performed by set_color before emitting
attributes: with bold off and equal colors, foreground becomes 7 when the
shared color is 0, else 0. -/
def set_color_fg (bold : Bool) (fg bg : ℤ) : ℤ :=
  if bold = false ∧ bg = fg then (if bg = 0 then 7 else 0) else fg

/-- set_fgcolor emits the SGR code fg % 8 + 30.  The C % on the nonnegative
color values used by the renderer agrees with Lean % on integers. -/
def set_fgcolor_code (fg : ℤ) : ℤ := fg % 8 + 30

/-- set_bgcolor emits the SGR code bg % 8 + 40. -/
def set_bgcolor_code (bg : ℤ) : ℤ := bg % 8 + 40

/-- The glyph palette of print_cell. -/
def charset : List Char := [' ', '.', '-', '+', '%', '8', '/', '\\']

/-- The foreground color palette of print_cell. -/
def fg_palette : List ℤ := [0, 0, 7, 7, 7, 7, 2, 2]

/-- The bold palette of print_cell. -/
def bold_palette : List ℤ := [1, 1, 0, 0, 1, 1, 0, 0]

/-- The intensity level computed by print_cell: c = val * 20 / scale with C
integer division, clamped above at 5, then overridden to 6 and 7 for the
border sentinels -1 and -2. -/
def print_cell_level (val scale : ℤ) : ℤ :=
  let c := (val * 20).tdiv scale
  let c2 := if c > 5 then 5 else c
  if val = -1 then 6 else if val = -2 then 7 else c2

/-- The scale selected by print_grid: grid->popmax if nonzero, else 1. -/
def print_grid_scale (g : GridInfo) : ℤ :=
  if g.popmax ≠ 0 then g.popmax else 1

/-- gridpop[v][u]++ followed by the popmax update of the depth callback. -/
def grid_incr (g : GridInfo) (v u : ℤ) : GridInfo :=
  let p := g.gridpop v u + 1
  { g with
    gridpop := fun v' u' => if v' = v ∧ u' = u then p else g.gridpop v' u'
    popmax := if p > g.popmax then p else g.popmax }

/-- gridpop[v][u] = val. -/
def grid_set (g : GridInfo) (v u val : ℤ) : GridInfo :=
  { g with
    gridpop := fun v' u' => if v' = v ∧ u' = u then val else g.gridpop v' u' }

/-- clear_grid: memset the population buffer to zero and reset popmax. -/
def clear_grid (g : GridInfo) : GridInfo :=
  { g with gridpop := fun _ _ => 0, popmax := 0 }

/-- One iteration of the draw_grid_border loop at distance row v.  The C
source hoists inc out of the loop; since grid_set never changes the
configuration fields, recomputing it per row is identical.  The left border
aborts (none) when its computed column is out of range; the right border is
clamped only at the top end. -/
def border_row (g : GridInfo) (v : ℤ) : Option GridInfo :=
  let inc := (g.zmax - g.zmin) / (g.vdiv : ℚ)
  let zw := zgrid_to_world g v + inc
  let u0 := xyworld_to_grid g (g.wmax * zw / g.zmax)
  let u1 := if u0 ≥ g.udiv then g.udiv - 1 else u0
  let g1 := grid_set g v u1 (-2)
  let u2 := xyworld_to_grid g1 (-g1.wmax * zw / g1.zmax)
  if u2 < 0 ∨ u2 ≥ g1.udiv then none else some (grid_set g1 v u2 (-1))

/-- draw_grid_border: the border annotator, one row per distance bucket. -/
def draw_grid_border (g : GridInfo) : Option GridInfo :=
  (List.range g.vdiv.toNat).foldl
    (fun og (v : ℕ) => og.bind (fun g' => border_row g' (v : ℤ))) (some g)

/-- Display mode enum of struct kinradar_data. -/
inductive DispMode where
  | SHOW_BOTH
  | SHOW_HORIZ
  | SHOW_VERT
  deriving DecidableEq

/-- struct kinradar_data: the session state reachable from the depth
callback.  depth_lut is the table initialized at startup; a concrete float
table is a rational-valued function of the code. -/
structure KinradarData where
  depth_lut : ℕ → ℚ
  disp_mode : DispMode
  out_of_range : Bool
  done : Bool
  xgrid : GridInfo
  ygrid : GridInfo
  ytop : ℤ
  ybot : ℤ
  frame : ℕ

/-- The per-pixel body of the binning loop in the depth callback.  The
accumulator carries (xgrid, ygrid, oor_total).  The clipping tests read the
clip planes of the xgrid, exactly as the C source does for both grids. -/
def pixelStep (lut : ℕ → ℚ) (buf : ℤ → ℕ) (x y : ℤ)
    (acc : GridInfo × GridInfo × ℤ) : GridInfo × GridInfo × ℤ :=
  let xg := acc.1
  let yg := acc.2.1
  let oor := acc.2.2
  if DPT buf x y = 2047 then (xg, yg, oor + 1)
  else
    let zw := lut (DPT buf x y)
    if zw < xg.zmin then acc
    else if zw > xg.zmax then acc
    else
      let xw := xworld x zw
      let yw := yworld y zw
      let u := xyworld_to_grid xg xw
      let v := zworld_to_grid xg zw
      let xg2 := grid_incr xg v u
      let u2 := xyworld_to_grid yg yw
      let v2 := zworld_to_grid yg zw
      let yg2 := grid_incr yg v2 u2
      (xg2, yg2, oor)

/-- The clearing and binning phases of the depth callback: clear both
grids, then fold the per-pixel step over the active row band (rows ytop to
ybot exclusive, all 640 columns), producing the two populated grids and
oor_total. -/
def binFrame (d : KinradarData) (buf : ℤ → ℕ) : GridInfo × GridInfo × ℤ :=
  (List.range (d.ybot - d.ytop).toNat).foldl
    (fun acc (i : ℕ) =>
      (List.range 640).foldl
        (fun acc2 (j : ℕ) => pixelStep d.depth_lut buf (j : ℤ) (d.ytop + (i : ℤ)) acc2)
        acc)
    (clear_grid d.xgrid, clear_grid d.ygrid, 0)

/-- The out-of-range threshold FREENECT_FRAME_PIX * 35 / 100 in C integer
arithmetic. -/
def oor_threshold : ℤ := (FREENECT_FRAME_PIX * 35).tdiv 100

/-- One full tick of the depth callback: clear, bin, annotate borders on
both grids (abort propagates as none), set the out-of-range flag from
oor_total against 35 percent of the full frame, increment the frame
counter.  Terminal output is pure display and is not modelled. -/
def depth (d : KinradarData) (buf : ℤ → ℕ) : Option KinradarData :=
  let r := binFrame d buf
  match draw_grid_border r.1, draw_grid_border r.2.1 with
  | some xg, some yg =>
      some { d with
             xgrid := xg
             ygrid := yg
             out_of_range := decide (r.2.2 > oor_threshold)
             frame := d.frame + 1 }
  | _, _ => none

/-- The record built by a successful depth tick: new grids, the
out-of-range flag from oor_total against the threshold, and the bumped
frame counter. -/
def depth_result (d : KinradarData) (buf : ℤ → ℕ) (xg yg : GridInfo) : KinradarData :=
  { d with
    xgrid := xg
    ygrid := yg
    out_of_range := decide ((binFrame d buf).2.2 > oor_threshold)
    frame := d.frame + 1 }

/-- init_lut: the empirical calibration formula
0.1236 * tanf(i / 2842.5 + 1.1863), modelled over the reals. -/
noncomputable def init_lut (i : ℕ) : ℝ :=
  0.1236 * Real.tan ((i : ℝ) / 2842.5 + 1.1863)

/-- popmax is a correct running maximum: it bounds every cell and is
attained by some cell. -/
def GridMaxInv (g : GridInfo) : Prop :=
  (∀ v u, g.gridpop v u ≤ g.popmax) ∧ (∃ v u, g.gridpop v u = g.popmax)

/-- Every cell of the grid is nonnegative. -/
def GridNonneg (g : GridInfo) : Prop := ∀ v u, 0 ≤ g.gridpop v u

/-- Every cell outside the finite index set s is zero. -/
def gridSupportIn (g : GridInfo) (s : Finset (ℤ × ℤ)) : Prop :=
  ∀ v u, (v, u) ∉ s → g.gridpop v u = 0

/-- The total population of the cells indexed by s. -/
def gridSum (g : GridInfo) (s : Finset (ℤ × ℤ)) : ℤ :=
  s.sum fun p => g.gridpop p.1 p.2

/-- The configuration fields of a grid, which no frame-time operation
mutates. -/
def gridCfg (g : GridInfo) : ℤ × ℤ × ℚ × ℚ × ℚ :=
  (g.udiv, g.vdiv, g.zmin, g.zmax, g.wmax)

/-- Horizontal grid with the default configuration (65 lateral and 32
distance divisions, clip planes 0 and 6, lateral extent from xworld at the
far plane). -/
def C1xg : GridInfo :=
  { udiv := 65, vdiv := 32, zmin := 0, zmax := 6, wmax := xworld 0 6
    gridpop := fun _ _ => 0, popmax := 0 }

/-- Vertical grid with the default configuration. -/
def C1yg : GridInfo :=
  { udiv := 32, vdiv := 80, zmin := 0, zmax := 6
    wmax := yworld (FREENECT_FRAME_H - 1) 6
    gridpop := fun _ _ => 0, popmax := 0 }

/-- A lookup table whose every entry is exactly the far clipping plane. -/
def C1lut : ℕ → ℚ := fun _ => 6

/-- A frame whose every pixel holds raw code 0. -/
def C1buf : ℤ → ℕ := fun _ => 0

/-- A frame whose every pixel holds the out-of-range sentinel. -/
def C2buf : ℤ → ℕ := fun _ => 2047

/-- A degenerate 1x1 grid on which the border annotator succeeds. -/
def tinyGrid : GridInfo :=
  { udiv := 1, vdiv := 1, zmin := 0, zmax := 1, wmax := 1
    gridpop := fun _ _ => 0, popmax := 0 }

/-- Session state whose active row band is the single top row, used to
exhibit the denominator of the out-of-range ratio. -/
def C2d : KinradarData :=
  { depth_lut := fun _ => 1, disp_mode := DispMode.SHOW_BOTH
    out_of_range := false, done := false
    xgrid := tinyGrid, ygrid := tinyGrid, ytop := 0, ybot := 1, frame := 0 }

/-- Session state with the full active row band. -/
def W2d : KinradarData :=
  { depth_lut := fun _ => 1, disp_mode := DispMode.SHOW_BOTH
    out_of_range := false, done := false
    xgrid := tinyGrid, ygrid := tinyGrid, ytop := 0, ybot := 480, frame := 0 }

/-- Session state with an empty active row band. -/
def W8d : KinradarData :=
  { depth_lut := fun _ => 1, disp_mode := DispMode.SHOW_BOTH
    out_of_range := false, done := false
    xgrid := tinyGrid, ygrid := tinyGrid, ytop := 0, ybot := 0, frame := 0 }

/-- The frame used for the idempotence witness. -/
def W8buf : ℤ → ℕ := fun _ => 2047

/-- The state after one tick of the depth callback on W8d. -/
def W8d1 : KinradarData := (depth W8d W8buf).getD W8d

/-- Session state with an empty active row band, for the sum witness. -/
def W9d : KinradarData :=
  { depth_lut := fun _ => 1, disp_mode := DispMode.SHOW_BOTH
    out_of_range := false, done := false
    xgrid := tinyGrid, ygrid := tinyGrid, ytop := 0, ybot := 0, frame := 0 }

/-- The frame used for the sum witness. -/
def W9buf : ℤ → ℕ := fun _ => 0

/-- A grid whose maximum population is 10. -/
def W6g : GridInfo :=
  { udiv := 1, vdiv := 1, zmin := 0, zmax := 1, wmax := 1
    gridpop := fun _ _ => 10, popmax := 10 }

/-- A lookup table whose every entry is 1, the far plane of tinyGrid. -/
def W5lut : ℕ → ℚ := fun _ => 1

/-- A frame whose every pixel holds raw code 3. -/
def W5buf : ℤ → ℕ := fun _ => 3

/-! ### Helper lemmas -/

theorem cint_of_nonneg {q : ℚ} (h : 0 ≤ q) : cint q = ⌊q⌋ := by
  rw [cint, if_neg (not_lt.2 h)]

theorem cint_nonneg {q : ℚ} (h : 0 ≤ q) : 0 ≤ cint q := by
  rw [cint_of_nonneg h]
  exact Int.floor_nonneg.2 h

theorem cint_le_intCast {q : ℚ} {n : ℤ} (h0 : 0 ≤ q) (h : q ≤ (n : ℚ)) :
    cint q ≤ n := by
  rw [cint_of_nonneg h0]
  calc ⌊q⌋ ≤ ⌊(n : ℚ)⌋ := Int.floor_le_floor h
    _ = n := Int.floor_intCast n

theorem cint_intCast (n : ℤ) : cint ((n : ℚ)) = n := by
  by_cases h : ((n : ℚ)) < 0
  · rw [cint, if_pos h, ← Int.cast_neg, Int.floor_intCast, neg_neg]
  · rw [cint, if_neg h, Int.floor_intCast]

theorem zworld_to_grid_bounds (g : GridInfo) (z : ℚ) (hv : 0 < g.vdiv) :
    0 ≤ zworld_to_grid g z ∧ zworld_to_grid g z ≤ g.vdiv - 1 := by
  simp only [zworld_to_grid]
  split_ifs <;> omega

theorem zworld_to_grid_far_clip (g : GridInfo) (hlt : g.zmin < g.zmax)
    (hv : 0 < g.vdiv) : zworld_to_grid g g.zmax = g.vdiv - 1 := by
  have hne : g.zmax - g.zmin ≠ 0 := sub_ne_zero.2 (ne_of_gt hlt)
  have hq : (g.zmax - g.zmin) * (g.vdiv : ℚ) / (g.zmax - g.zmin) = (g.vdiv : ℚ) := by
    rw [mul_comm, mul_div_assoc, div_self hne, mul_one]
  simp only [zworld_to_grid, hq, cint_intCast]
  split_ifs <;> omega

theorem foldl_inv {α β : Type _} (P : β → Prop) (f : β → α → β)
    (hf : ∀ b a, P b → P (f b a)) :
    ∀ (l : List α) (b : β), P b → P (l.foldl f b) := by
  intro l
  induction l with
  | nil => exact fun b hb => hb
  | cons a t ih => exact fun b hb => ih (f b a) (hf b a hb)

theorem pixelStep_sentinel (lut : ℕ → ℚ) (buf : ℤ → ℕ) (x y : ℤ)
    (acc : GridInfo × GridInfo × ℤ) (h : DPT buf x y = 2047) :
    pixelStep lut buf x y acc = (acc.1, acc.2.1, acc.2.2 + 1) := by
  simp [pixelStep, h]

/-! ### Claim theorems -/

/-- C4: a pixel holding the out-of-range sentinel 2047 increments
oor_total exactly once, leaves every cell of both grids unchanged, and the
result does not depend on the lookup table, so the table is never indexed
for that pixel. -/
theorem sentinel_pixel_skipped (lut : ℕ → ℚ) (buf : ℤ → ℕ) (x y : ℤ)
    (acc : GridInfo × GridInfo × ℤ) (h : DPT buf x y = 2047) :
    pixelStep lut buf x y acc = (acc.1, acc.2.1, acc.2.2 + 1)
    ∧ (∀ v u, (pixelStep lut buf x y acc).1.gridpop v u = acc.1.gridpop v u)
    ∧ (∀ v u, (pixelStep lut buf x y acc).2.1.gridpop v u = acc.2.1.gridpop v u)
    ∧ ∀ lut' : ℕ → ℚ, pixelStep lut' buf x y acc = pixelStep lut buf x y acc := by
  refine ⟨pixelStep_sentinel lut buf x y acc h, ?_, ?_, ?_⟩
  · intro v u; rw [pixelStep_sentinel lut buf x y acc h]
  · intro v u; rw [pixelStep_sentinel lut buf x y acc h]
  · intro lut'
    rw [pixelStep_sentinel lut buf x y acc h, pixelStep_sentinel lut' buf x y acc h]

/-- C4 witness at a concrete sentinel pixel. -/
theorem sentinel_pixel_skipped_witness :
    pixelStep C1lut C2buf 0 0 (C1xg, C1yg, 0) = ((C1xg, C1yg, 0).1, (C1xg, C1yg, 0).2.1, (C1xg, C1yg, 0).2.2 + 1)
    ∧ (∀ v u, (pixelStep C1lut C2buf 0 0 (C1xg, C1yg, 0)).1.gridpop v u = (C1xg, C1yg, 0).1.gridpop v u)
    ∧ (∀ v u, (pixelStep C1lut C2buf 0 0 (C1xg, C1yg, 0)).2.1.gridpop v u = (C1xg, C1yg, 0).2.1.gridpop v u)
    ∧ ∀ lut' : ℕ → ℚ, pixelStep lut' C2buf 0 0 (C1xg, C1yg, 0) = pixelStep C1lut C2buf 0 0 (C1xg, C1yg, 0) :=
  sentinel_pixel_skipped C1lut C2buf 0 0 (C1xg, C1yg, 0) rfl

/-- C5: a pixel whose looked-up distance equals exactly far_clip passes
both clipping tests, its distance bucket is exactly vdiv - 1 by the clamp,
that index is in bounds, and the pixel is binned (both grids are
incremented, oor_total untouched). -/
theorem far_clip_pixel_binned (lut : ℕ → ℚ) (buf : ℤ → ℕ) (x y : ℤ)
    (xg yg : GridInfo) (oor : ℤ)
    (hcode : DPT buf x y ≠ 2047)
    (hz : lut (DPT buf x y) = xg.zmax)
    (hlt : xg.zmin < xg.zmax) (hv : 0 < xg.vdiv) :
    zworld_to_grid xg (lut (DPT buf x y)) = xg.vdiv - 1
    ∧ 0 ≤ xg.vdiv - 1
    ∧ pixelStep lut buf x y (xg, yg, oor)
        = (grid_incr xg (xg.vdiv - 1) (xyworld_to_grid xg (xworld x xg.zmax)),
           grid_incr yg (zworld_to_grid yg xg.zmax) (xyworld_to_grid yg (yworld y xg.zmax)),
           oor) := by
  have hfar := zworld_to_grid_far_clip xg hlt hv
  refine ⟨by rw [hz]; exact hfar, by omega, ?_⟩
  simp only [pixelStep]
  rw [if_neg hcode]
  simp only [hz]
  rw [if_neg (not_lt.2 (le_of_lt hlt)), if_neg (lt_irrefl xg.zmax), hfar]

/-- C5 witness at a concrete pixel whose distance is exactly the far
plane. -/
theorem far_clip_pixel_binned_witness :
    zworld_to_grid tinyGrid (W5lut (DPT W5buf 2 3)) = tinyGrid.vdiv - 1
    ∧ 0 ≤ tinyGrid.vdiv - 1
    ∧ pixelStep W5lut W5buf 2 3 (tinyGrid, C1yg, 5)
        = (grid_incr tinyGrid (tinyGrid.vdiv - 1) (xyworld_to_grid tinyGrid (xworld 2 tinyGrid.zmax)),
           grid_incr C1yg (zworld_to_grid C1yg tinyGrid.zmax) (xyworld_to_grid C1yg (yworld 3 tinyGrid.zmax)),
           5) :=
  far_clip_pixel_binned W5lut W5buf 2 3 tinyGrid C1yg 5 (by decide) rfl (by decide) (by decide)

/-- C6: the renderer substitutes scale 1 exactly when max_population is
zero (else uses max_population), computes the intensity level as the
truncated quotient val * 20 / scale clamped into the range 0..5 for
nonnegative cell values, maps the border sentinels -1 and -2 to the fixed
levels 6 and 7 outside that range, and a cell value of 10 at scale 10
yields level 5 whose glyph is the densest character 8. -/
theorem render_level_spec (g : GridInfo) (val scale : ℤ)
    (hpop : 0 ≤ g.popmax) (hval : 0 ≤ val) (hscale : 0 < scale) :
    (0 < g.popmax → print_grid_scale g = g.popmax)
    ∧ (g.popmax = 0 → print_grid_scale g = 1)
    ∧ print_cell_level val scale = min ((val * 20).tdiv scale) 5
    ∧ 0 ≤ print_cell_level val scale
    ∧ print_cell_level val scale ≤ 5
    ∧ (∀ s : ℤ, print_cell_level (-1) s = 6)
    ∧ (∀ s : ℤ, print_cell_level (-2) s = 7)
    ∧ print_cell_level 10 10 = 5
    ∧ charset.getD 5 ' ' = '8' := by
  have hc : 0 ≤ (val * 20).tdiv scale :=
    Int.tdiv_nonneg (mul_nonneg hval (by norm_num)) hscale.le
  have hmin : print_cell_level val scale = min ((val * 20).tdiv scale) 5 := by
    simp only [print_cell_level]
    rw [if_neg (by omega : ¬ val = -1), if_neg (by omega : ¬ val = -2)]
    split_ifs with h
    · exact (min_eq_right (by omega)).symm
    · exact (min_eq_left (by omega)).symm
  refine ⟨?_, ?_, hmin, ?_, ?_, ?_, ?_, by decide, by decide⟩
  · intro h; rw [print_grid_scale, if_pos (by omega)]
  · intro h; rw [print_grid_scale, if_neg (by omega)]
  · rw [hmin]; exact le_min hc (by omega)
  · rw [hmin]; exact min_le_right _ _
  · intro s; simp [print_cell_level]
  · intro s; simp [print_cell_level]

/-- C6 witness on a grid whose maximum population is 10 and the densest
cell value 10. -/
theorem render_level_spec_witness :
    (0 < W6g.popmax → print_grid_scale W6g = W6g.popmax)
    ∧ (W6g.popmax = 0 → print_grid_scale W6g = 1)
    ∧ print_cell_level 10 10 = min (((10 : ℤ) * 20).tdiv 10) 5
    ∧ 0 ≤ print_cell_level 10 10
    ∧ print_cell_level 10 10 ≤ 5
    ∧ (∀ s : ℤ, print_cell_level (-1) s = 6)
    ∧ (∀ s : ℤ, print_cell_level (-2) s = 7)
    ∧ print_cell_level 10 10 = 5
    ∧ charset.getD 5 ' ' = '8' :=
  render_level_spec W6g 10 10 (by decide) (by decide) (by decide)

/-- C10: with bold off and both colors in the terminal palette range 0..7,
the foreground code emitted after the set_color substitution always
differs from the background code; the substitution picks foreground 7 when
the shared color is 0 and foreground 0 otherwise; in particular every
bold-off entry of the print_cell palette renders visibly on the black
background. -/
theorem set_color_distinct (fg bg : ℤ)
    (h1 : 0 ≤ fg) (h2 : fg < 8) (h3 : 0 ≤ bg) (h4 : bg < 8) :
    (set_color_fg false fg bg) % 8 ≠ bg % 8
    ∧ (fg = bg → bg = 0 → set_color_fg false fg bg = 7)
    ∧ (fg = bg → bg ≠ 0 → set_color_fg false fg bg = 0)
    ∧ (∀ c : ℕ, c < 8 → bold_palette.getD c 1 = 0 →
        (set_color_fg false (fg_palette.getD c 0) 0) % 8 ≠ (0 : ℤ) % 8) := by
  refine ⟨?_, ?_, ?_, by decide⟩
  · simp only [set_color_fg]
    split_ifs with hA hB
    · omega
    · omega
    · have hne : bg ≠ fg := fun h => hA ⟨by trivial, h⟩
      omega
  · intro ha hb; simp [set_color_fg, ha, hb]
  · intro ha hb; simp [set_color_fg, ha, hb]

/-- C10 witness at the shared color 7. -/
theorem set_color_distinct_witness :
    (set_color_fg false 7 7) % 8 ≠ (7 : ℤ) % 8
    ∧ ((7 : ℤ) = 7 → (7 : ℤ) = 0 → set_color_fg false 7 7 = 7)
    ∧ ((7 : ℤ) = 7 → (7 : ℤ) ≠ 0 → set_color_fg false 7 7 = 0)
    ∧ (∀ c : ℕ, c < 8 → bold_palette.getD c 1 = 0 →
        (set_color_fg false (fg_palette.getD c 0) 0) % 8 ≠ (0 : ℤ) % 8) :=
  set_color_distinct 7 7 (by decide) (by decide) (by decide) (by decide)

/-- C3 counterexample: the calibration formula is not monotone over the
code range 0..2046, because its argument crosses the tangent pole at pi/2
between codes 1092 and 1093: the value at 1093 is negative while the value
at 1092 is positive. -/
theorem init_lut_not_monotone :
    (1092 : ℕ) ≤ 1093 ∧ (1093 : ℕ) ≤ 2046 ∧ init_lut 1093 < init_lut 1092 := by
  refine ⟨by norm_num, by norm_num, ?_⟩
  have hpi1 := Real.pi_gt_d6
  have hpi2 := Real.pi_lt_d6
  have hA1 : (0 : ℝ) < ((1092 : ℕ) : ℝ) / 2842.5 + 1.1863 := by
    push_cast; norm_num
  have hA2 : ((1092 : ℕ) : ℝ) / 2842.5 + 1.1863 < Real.pi / 2 := by
    push_cast; norm_num; linarith
  have hB1 : Real.pi / 2 < ((1093 : ℕ) : ℝ) / 2842.5 + 1.1863 := by
    push_cast; norm_num; linarith
  have hB2 : ((1093 : ℕ) : ℝ) / 2842.5 + 1.1863 < Real.pi := by
    push_cast; norm_num; linarith
  have htA : 0 < Real.tan (((1092 : ℕ) : ℝ) / 2842.5 + 1.1863) :=
    Real.tan_pos_of_pos_of_lt_pi_div_two hA1 hA2
  have htB : Real.tan (((1093 : ℕ) : ℝ) / 2842.5 + 1.1863) < 0 := by
    rw [Real.tan_eq_sin_div_cos]
    apply div_neg_of_pos_of_neg
    · refine Real.sin_pos_of_pos_of_lt_pi ?_ hB2
      have : (0 : ℝ) < Real.pi / 2 := by linarith
      linarith
    · refine Real.cos_neg_of_pi_div_two_lt_of_lt hB1 ?_
      linarith
  unfold init_lut
  nlinarith [htA, htB]

/-- C3 amended: the lookup table is monotone non-decreasing on the codes
0..1092, exactly those whose calibration argument stays below the tangent
pole at pi/2. -/
theorem init_lut_monotone_below_pole (i j : ℕ) (hij : i ≤ j) (hj : j ≤ 1092) :
    init_lut i ≤ init_lut j := by
  have hpi1 := Real.pi_gt_d6
  have hcast : (j : ℝ) ≤ 1092 := by exact_mod_cast hj
  have hcij : (i : ℝ) ≤ (j : ℝ) := by exact_mod_cast hij
  have hmemi : (i : ℝ) / 2842.5 + 1.1863 ∈ Set.Ioo (-(Real.pi / 2)) (Real.pi / 2) := by
    constructor
    · have : (0 : ℝ) ≤ (i : ℝ) / 2842.5 := by positivity
      nlinarith
    · have h1 : (i : ℝ) / 2842.5 ≤ 1092 / 2842.5 := by
        apply div_le_div_of_nonneg_right ?_ (by norm_num)
        linarith
      nlinarith
  have hmemj : (j : ℝ) / 2842.5 + 1.1863 ∈ Set.Ioo (-(Real.pi / 2)) (Real.pi / 2) := by
    constructor
    · have : (0 : ℝ) ≤ (j : ℝ) / 2842.5 := by positivity
      nlinarith
    · have h1 : (j : ℝ) / 2842.5 ≤ 1092 / 2842.5 := by
        apply div_le_div_of_nonneg_right hcast (by norm_num)
      nlinarith
  have harg : (i : ℝ) / 2842.5 + 1.1863 ≤ (j : ℝ) / 2842.5 + 1.1863 := by
    have : (i : ℝ) / 2842.5 ≤ (j : ℝ) / 2842.5 := by
      apply div_le_div_of_nonneg_right hcij (by norm_num)
    linarith
  have htan := Real.strictMonoOn_tan.monotoneOn hmemi hmemj harg
  unfold init_lut
  nlinarith [htan]

/-- C3 amended witness at codes 3 and 7. -/
theorem init_lut_monotone_below_pole_witness : init_lut 3 ≤ init_lut 7 :=
  init_lut_monotone_below_pole 3 7 (by norm_num) (by norm_num)

/-- C1 amended: for a pixel accepted by the clipping tests on a horizontal
grid whose lateral extent is the world offset of column 0 at the far
plane, the distance bucket index always lies in 0..vdiv-1 (the conversion
clamps), while the lateral bucket index lies in 0..udiv: it can reach
udiv, one past the last column, and the binning loop performs no bounds
check and never aborts. -/
theorem accepted_pixel_bucket_bounds (g : GridInfo) (x : ℤ) (zw : ℚ)
    (hw : g.wmax = xworld 0 g.zmax) (hzmax : 0 < g.zmax)
    (hz0 : 0 ≤ zw) (hz1 : zw ≤ g.zmax)
    (hx0 : 0 ≤ x) (hx1 : x ≤ FREENECT_FRAME_W - 1)
    (hu : 0 < g.udiv) (hv : 0 < g.vdiv) :
    0 ≤ xyworld_to_grid g (xworld x zw)
    ∧ xyworld_to_grid g (xworld x zw) ≤ g.udiv
    ∧ 0 ≤ zworld_to_grid g zw
    ∧ zworld_to_grid g zw ≤ g.vdiv - 1 := by
  have h320 : half_w = 320 := by decide
  have h640 : FREENECT_FRAME_W = 640 := by decide
  have hxw : xworld x zw = (320 - (x : ℚ)) * (0.70021 / 320) * zw := by
    rw [xworld, h320]; push_cast; ring
  have hwmax : g.wmax = 320 * (0.70021 / 320) * g.zmax := by
    rw [hw, xworld, h320]; push_cast; ring
  have hX0 : (0 : ℚ) ≤ (x : ℚ) := by exact_mod_cast hx0
  have hX1 : (x : ℚ) ≤ 639 := by
    have : x ≤ 639 := by omega
    exact_mod_cast this
  have hUq : (0 : ℚ) ≤ (g.udiv : ℚ) := by exact_mod_cast hu.le
  have hwpos : 0 < g.wmax := by rw [hwmax]; linarith
  have hlow : 0 ≤ xworld x zw + g.wmax := by
    rw [hxw, hwmax]
    nlinarith [mul_le_mul_of_nonneg_right
                 (show (-319 : ℚ) ≤ 320 - (x : ℚ) by linarith) hz0,
               mul_le_mul_of_nonneg_left hz1 (show (0 : ℚ) ≤ 319 by norm_num)]
  have hhigh : xworld x zw + g.wmax ≤ 2 * g.wmax := by
    rw [hxw, hwmax]
    nlinarith [mul_le_mul_of_nonneg_right
                 (show (320 - (x : ℚ) : ℚ) ≤ 320 by linarith) hz0,
               mul_le_mul_of_nonneg_left hz1 (show (0 : ℚ) ≤ 320 by norm_num)]
  have hq0 : 0 ≤ (xworld x zw + g.wmax) * (g.udiv : ℚ) / (2 * g.wmax) :=
    div_nonneg (mul_nonneg hlow hUq) (by linarith)
  have hu0 : 0 ≤ xyworld_to_grid g (xworld x zw) := cint_nonneg hq0
  have hu1 : xyworld_to_grid g (xworld x zw) ≤ g.udiv := by
    apply cint_le_intCast hq0
    rw [div_le_iff (by linarith : (0 : ℚ) < 2 * g.wmax)]
    nlinarith [mul_le_mul_of_nonneg_right hhigh hUq]
  obtain ⟨hv0, hv1⟩ := zworld_to_grid_bounds g zw hv
  exact ⟨hu0, hu1, hv0, hv1⟩

/-- C1 amended witness: a concrete accepted pixel on the default
horizontal grid. -/
theorem accepted_pixel_bucket_bounds_witness :
    0 ≤ xyworld_to_grid C1xg (xworld 5 3)
    ∧ xyworld_to_grid C1xg (xworld 5 3) ≤ C1xg.udiv
    ∧ 0 ≤ zworld_to_grid C1xg 3
    ∧ zworld_to_grid C1xg 3 ≤ C1xg.vdiv - 1 :=
  accepted_pixel_bucket_bounds C1xg 5 3 rfl (by decide) (by decide) (by decide)
    (by decide) (by decide) (by decide) (by decide)

/-- C1 counterexample: a pixel at column 0 whose looked-up distance is
exactly the far plane passes the clipping tests, yet its lateral bucket
index equals udiv, outside 0..udiv-1, and the binning step writes the cell
at column udiv anyway instead of aborting. -/
theorem binning_no_bounds_check_cex :
    DPT C1buf 0 0 ≠ 2047
    ∧ ¬ C1lut (DPT C1buf 0 0) < C1xg.zmin
    ∧ ¬ C1lut (DPT C1buf 0 0) > C1xg.zmax
    ∧ xyworld_to_grid C1xg (xworld 0 (C1lut (DPT C1buf 0 0))) = C1xg.udiv
    ∧ ¬ xyworld_to_grid C1xg (xworld 0 (C1lut (DPT C1buf 0 0))) ≤ C1xg.udiv - 1
    ∧ (pixelStep C1lut C1buf 0 0 (C1xg, C1yg, 0)).1.gridpop
        (zworld_to_grid C1xg 6) C1xg.udiv = 1 := by
  with_unfolding_all decide

theorem grid_incr_gridpop (g : GridInfo) (v u v' u' : ℤ) :
    (grid_incr g v u).gridpop v' u'
      = if v' = v ∧ u' = u then g.gridpop v u + 1 else g.gridpop v' u' := rfl

theorem grid_incr_popmax (g : GridInfo) (v u : ℤ) :
    (grid_incr g v u).popmax = max (g.gridpop v u + 1) g.popmax := by
  show (if g.gridpop v u + 1 > g.popmax then g.gridpop v u + 1 else g.popmax) = _
  split_ifs with h
  · exact (max_eq_left (by omega)).symm
  · exact (max_eq_right (by omega)).symm

theorem grid_incr_maxInv {g : GridInfo} (h : GridMaxInv g) (v u : ℤ) :
    GridMaxInv (grid_incr g v u) := by
  obtain ⟨hub, w1, w2, hat⟩ := h
  constructor
  · intro v' u'
    have h1 := hub v' u'
    have h2 := hub v u
    rw [grid_incr_gridpop, grid_incr_popmax]
    split_ifs <;> omega
  · by_cases hp : g.gridpop v u + 1 > g.popmax
    · refine ⟨v, u, ?_⟩
      rw [grid_incr_gridpop, grid_incr_popmax, if_pos ⟨rfl, rfl⟩]
      omega
    · refine ⟨w1, w2, ?_⟩
      have hne : ¬(w1 = v ∧ w2 = u) := by
        rintro ⟨rfl, rfl⟩
        omega
      rw [grid_incr_gridpop, grid_incr_popmax, if_neg hne, hat]
      omega

theorem clear_grid_maxInv (g : GridInfo) : GridMaxInv (clear_grid g) :=
  ⟨fun _ _ => le_refl 0, 0, 0, rfl⟩

theorem pixelStep_cases (lut : ℕ → ℚ) (buf : ℤ → ℕ) (x y : ℤ)
    (acc : GridInfo × GridInfo × ℤ) :
    pixelStep lut buf x y acc = (acc.1, acc.2.1, acc.2.2 + 1)
    ∨ pixelStep lut buf x y acc = acc
    ∨ ∃ v u v2 u2,
        pixelStep lut buf x y acc
          = (grid_incr acc.1 v u, grid_incr acc.2.1 v2 u2, acc.2.2) := by
  by_cases h1 : DPT buf x y = 2047
  · exact Or.inl (pixelStep_sentinel lut buf x y acc h1)
  · by_cases h2 : lut (DPT buf x y) < acc.1.zmin
    · refine Or.inr (Or.inl ?_)
      simp [pixelStep, if_neg h1, h2]
    · by_cases h3 : lut (DPT buf x y) > acc.1.zmax
      · refine Or.inr (Or.inl ?_)
        simp [pixelStep, if_neg h1, h2, h3]
      · refine Or.inr (Or.inr ?_)
        refine ⟨zworld_to_grid acc.1 (lut (DPT buf x y)),
                xyworld_to_grid acc.1 (xworld x (lut (DPT buf x y))),
                zworld_to_grid acc.2.1 (lut (DPT buf x y)),
                xyworld_to_grid acc.2.1 (yworld y (lut (DPT buf x y))), ?_⟩
        simp [pixelStep, if_neg h1, h2, h3]

/-- A predicate on the binning accumulator preserved by every pixel step
holds for the output of binFrame whenever it holds for the cleared
grids. -/
theorem binFrame_pres (P : GridInfo × GridInfo × ℤ → Prop)
    (hP : ∀ lut buf x y acc, P acc → P (pixelStep lut buf x y acc))
    (d : KinradarData) (buf : ℤ → ℕ)
    (h0 : P (clear_grid d.xgrid, clear_grid d.ygrid, 0)) :
    P (binFrame d buf) := by
  refine foldl_inv P _ ?_ _ _ h0
  intro acc i hacc
  exact foldl_inv P _ (fun acc2 j h2 => hP _ _ _ _ _ h2) _ _ hacc

/-- C7: after the binning phase of a frame and before border annotation,
the popmax of each grid is the true maximum of its cells (it bounds every cell
and is attained); the update inside the loop is exactly a running maximum,
and clear_grid resets popmax and every cell to zero. -/
theorem binFrame_popmax_correct (d : KinradarData) (buf : ℤ → ℕ) :
    GridMaxInv (binFrame d buf).1
    ∧ GridMaxInv (binFrame d buf).2.1
    ∧ (∀ g : GridInfo, (clear_grid g).popmax = 0
        ∧ ∀ v u, (clear_grid g).gridpop v u = 0)
    ∧ (∀ g v u, (grid_incr g v u).popmax = max (g.gridpop v u + 1) g.popmax) := by
  have hmain : GridMaxInv (binFrame d buf).1 ∧ GridMaxInv (binFrame d buf).2.1 := by
    have := binFrame_pres (fun acc => GridMaxInv acc.1 ∧ GridMaxInv acc.2.1)
      ?_ d buf ⟨clear_grid_maxInv _, clear_grid_maxInv _⟩
    · exact this
    · intro lut buf' x y acc hacc
      rcases pixelStep_cases lut buf' x y acc with h | h | ⟨v, u, v2, u2, h⟩ <;> rw [h]
      · exact hacc
      · exact hacc
      · exact ⟨grid_incr_maxInv hacc.1 v u, grid_incr_maxInv hacc.2 v2 u2⟩
  exact ⟨hmain.1, hmain.2, fun g => ⟨rfl, fun _ _ => rfl⟩, grid_incr_popmax⟩

theorem gridSum_incr {g : GridInfo} {v u : ℤ} {s : Finset (ℤ × ℤ)}
    (hmem : (v, u) ∈ s) :
    gridSum (grid_incr g v u) s = gridSum g s + 1 := by
  unfold gridSum
  have hfun : ∀ p ∈ s, (grid_incr g v u).gridpop p.1 p.2
      = g.gridpop p.1 p.2 + (if p = (v, u) then 1 else 0) := by
    intro p _
    rw [grid_incr_gridpop]
    by_cases hp : p = (v, u)
    · subst hp; simp
    · have hc : ¬(p.1 = v ∧ p.2 = u) := fun hc => hp (Prod.ext hc.1 hc.2)
      rw [if_neg hc, if_neg hp, add_zero]
  rw [Finset.sum_congr rfl hfun, Finset.sum_add_distrib]
  congr 1
  rw [Finset.sum_ite_eq' s (v, u) (fun _ => 1), if_pos hmem]

theorem grid_incr_nonneg {g : GridInfo} (h : GridNonneg g) (v u : ℤ) :
    GridNonneg (grid_incr g v u) := by
  intro v' u'
  have h1 := h v' u'
  have h2 := h v u
  rw [grid_incr_gridpop]
  split_ifs <;> omega

theorem gridSupportIn_of_incr {g : GridInfo} {v u : ℤ} {s : Finset (ℤ × ℤ)}
    (hg : GridNonneg g) (h : gridSupportIn (grid_incr g v u) s) :
    gridSupportIn g s ∧ (v, u) ∈ s := by
  constructor
  · intro v' u' hns
    have hh := h v' u' hns
    rw [grid_incr_gridpop] at hh
    by_cases hc : v' = v ∧ u' = u
    · obtain ⟨rfl, rfl⟩ := hc
      rw [if_pos ⟨rfl, rfl⟩] at hh
      have := hg v' u'
      omega
    · rwa [if_neg hc] at hh
  · by_contra hns
    have hh := h v u hns
    rw [grid_incr_gridpop, if_pos ⟨rfl, rfl⟩] at hh
    have := hg v u
    omega

/-- C9: after the binning phase, the two occupancy grids hold the same
total population: over any finite index set covering the nonzero cells of
both grids, the cell sums agree, because every accepted pixel increments
exactly one cell in each grid and every skipped pixel increments
neither. -/
theorem binFrame_grid_sums_equal (d : KinradarData) (buf : ℤ → ℕ)
    (s : Finset (ℤ × ℤ))
    (hx : gridSupportIn (binFrame d buf).1 s)
    (hy : gridSupportIn (binFrame d buf).2.1 s) :
    gridSum (binFrame d buf).1 s = gridSum (binFrame d buf).2.1 s := by
  have h := binFrame_pres
    (fun acc => GridNonneg acc.1 ∧ GridNonneg acc.2.1 ∧
      ∀ t, gridSupportIn acc.1 t → gridSupportIn acc.2.1 t →
        gridSum acc.1 t = gridSum acc.2.1 t) ?_ d buf ?_
  · exact h.2.2 s hx hy
  · intro lut buf' x y acc hacc
    rcases pixelStep_cases lut buf' x y acc with heq | heq | ⟨v, u, v2, u2, heq⟩ <;>
      rw [heq]
    · exact hacc
    · exact hacc
    · refine ⟨grid_incr_nonneg hacc.1 v u, grid_incr_nonneg hacc.2.1 v2 u2, ?_⟩
      intro t ht1 ht2
      obtain ⟨ht1', hm1⟩ := gridSupportIn_of_incr hacc.1 ht1
      obtain ⟨ht2', hm2⟩ := gridSupportIn_of_incr hacc.2.1 ht2
      rw [gridSum_incr hm1, gridSum_incr hm2, hacc.2.2 t ht1' ht2']
  · refine ⟨fun _ _ => le_refl 0, fun _ _ => le_refl 0, ?_⟩
    intro t _ _
    simp [gridSum, clear_grid]

/-- C9 witness on an empty active row band. -/
theorem binFrame_grid_sums_equal_witness :
    gridSum (binFrame W9d W9buf).1 ∅ = gridSum (binFrame W9d W9buf).2.1 ∅ :=
  binFrame_grid_sums_equal W9d W9buf ∅ (fun _ _ _ => rfl) (fun _ _ _ => rfl)

theorem foldl_row_sentinel (lut : ℕ → ℚ) (buf : ℤ → ℕ) (y : ℤ)
    (hbuf : ∀ x, DPT buf x y = 2047) :
    ∀ (n : ℕ) (acc : GridInfo × GridInfo × ℤ),
      (List.range n).foldl (fun acc2 (j : ℕ) => pixelStep lut buf (j : ℤ) y acc2) acc
        = (acc.1, acc.2.1, acc.2.2 + (n : ℤ)) := by
  intro n
  induction n with
  | zero => intro acc; simp
  | succ k ih =>
      intro acc
      rw [List.range_succ, List.foldl_append, ih]
      simp only [List.foldl_cons, List.foldl_nil]
      rw [pixelStep_sentinel lut buf _ y _ (hbuf _)]
      simp only [Prod.mk.injEq, true_and]
      push_cast
      ring

theorem binFrame_all_sentinel (d : KinradarData) (buf : ℤ → ℕ)
    (hbuf : ∀ i, buf i = 2047) :
    binFrame d buf
      = (clear_grid d.xgrid, clear_grid d.ygrid,
         640 * (((d.ybot - d.ytop).toNat : ℕ) : ℤ)) := by
  have hb : ∀ x y, DPT buf x y = 2047 := fun x y => hbuf _
  unfold binFrame
  generalize (d.ybot - d.ytop).toNat = m
  induction m with
  | zero => simp
  | succ k ih =>
      rw [show List.range (k + 1) = List.range k ++ [k] from List.range_succ k,
        List.foldl_append, ih]
      simp only [List.foldl_cons, List.foldl_nil]
      rw [foldl_row_sentinel d.depth_lut buf _ (fun x => hb x _) 640 _]
      simp only [Prod.mk.injEq, true_and]
      push_cast
      ring

theorem depth_some_elim {d : KinradarData} {buf : ℤ → ℕ} {d' : KinradarData}
    (h : depth d buf = some d') :
    ∃ xg yg, draw_grid_border (binFrame d buf).1 = some xg
      ∧ draw_grid_border (binFrame d buf).2.1 = some yg
      ∧ d' = depth_result d buf xg yg := by
  simp only [depth] at h
  split at h
  · rename_i xg yg heq1 heq2
    exact ⟨xg, yg, heq1, heq2, (Option.some.inj h).symm⟩
  · exact Option.noConfusion h

/-- C2 amended: the out-of-range flag is raised iff oor_total exceeds 35
percent of the full frame pixel count FREENECT_FRAME_PIX, not of the
number of pixels in the active row band; for a full-band frame in which
every pixel holds the sentinel, oor_total is 640 * 480, both grids stay
all-zero, and the flag is raised. -/
theorem out_of_range_flag_spec (d : KinradarData) (buf : ℤ → ℕ) :
    (∀ d', depth d buf = some d' →
        (d'.out_of_range = true ↔
          100 * (binFrame d buf).2.2 > 35 * FREENECT_FRAME_PIX))
    ∧ (d.ytop = 0 → d.ybot = 480 → (∀ i, buf i = 2047) →
        (binFrame d buf).2.2 = 640 * 480
        ∧ (∀ v u, (binFrame d buf).1.gridpop v u = 0)
        ∧ (∀ v u, (binFrame d buf).2.1.gridpop v u = 0)
        ∧ ∀ d', depth d buf = some d' → d'.out_of_range = true) := by
  have hthr : oor_threshold = 107520 := by decide
  have hpix : FREENECT_FRAME_PIX = 307200 := by decide
  constructor
  · intro d' h
    obtain ⟨xg, yg, _, _, rfl⟩ := depth_some_elim h
    show decide ((binFrame d buf).2.2 > oor_threshold) = true ↔ _
    rw [decide_eq_true_eq, hthr, hpix]
    omega
  · intro h0 h480 hbuf
    have hsent := binFrame_all_sentinel d buf hbuf
    rw [h0, h480] at hsent
    have hoor : (binFrame d buf).2.2 = 640 * 480 := by
      rw [hsent]
      show (640 : ℤ) * (((480 : ℤ) - 0).toNat : ℤ) = 640 * 480
      decide
    refine ⟨hoor, ?_, ?_, ?_⟩
    · intro v u; rw [hsent]; rfl
    · intro v u; rw [hsent]; rfl
    · intro d' h
      obtain ⟨xg, yg, _, _, rfl⟩ := depth_some_elim h
      show decide ((binFrame d buf).2.2 > oor_threshold) = true
      rw [hoor, hthr]
      decide

/-- C2 amended witness: the full-band all-sentinel scenario. -/
theorem out_of_range_flag_spec_witness :
    (binFrame W2d C2buf).2.2 = 640 * 480
    ∧ (∀ v u, (binFrame W2d C2buf).1.gridpop v u = 0)
    ∧ (∀ v u, (binFrame W2d C2buf).2.1.gridpop v u = 0)
    ∧ (∀ d', depth W2d C2buf = some d' → d'.out_of_range = true) :=
  (out_of_range_flag_spec W2d C2buf).2 rfl rfl (fun _ => rfl)

set_option maxRecDepth 8000 in
/-- C2 counterexample: with the active row band restricted to the single
top row and every pixel out of range, 100 percent of the pixels considered
are out of range, yet the flag stays false because the code divides by the
full frame size. -/
theorem out_of_range_denominator_cex :
    (binFrame C2d C2buf).2.2 = 640
    ∧ 100 * (binFrame C2d C2buf).2.2 > 35 * (640 * (C2d.ybot - C2d.ytop))
    ∧ (depth C2d C2buf).map KinradarData.out_of_range = some false := by
  refine ⟨?_, ?_, ?_⟩
  · with_unfolding_all decide
  · with_unfolding_all decide
  · with_unfolding_all decide

theorem clear_grid_congr {g g' : GridInfo} (h : gridCfg g = gridCfg g') :
    clear_grid g = clear_grid g' := by
  obtain ⟨u1, v1, zn1, zx1, w1, gp1, pm1⟩ := g
  obtain ⟨u2, v2, zn2, zx2, w2, gp2, pm2⟩ := g'
  simp only [gridCfg, Prod.mk.injEq] at h
  obtain ⟨e1, e2, e3, e4, e5⟩ := h
  subst e1; subst e2; subst e3; subst e4; subst e5
  rfl

theorem binFrame_cfg (d : KinradarData) (buf : ℤ → ℕ) :
    gridCfg (binFrame d buf).1 = gridCfg d.xgrid
    ∧ gridCfg (binFrame d buf).2.1 = gridCfg d.ygrid := by
  refine binFrame_pres
    (fun acc => gridCfg acc.1 = gridCfg d.xgrid ∧ gridCfg acc.2.1 = gridCfg d.ygrid)
    ?_ d buf ⟨rfl, rfl⟩
  intro lut buf' x y acc hacc
  rcases pixelStep_cases lut buf' x y acc with heq | heq | ⟨v, u, v2, u2, heq⟩ <;>
    rw [heq]
  · exact hacc
  · exact hacc
  · exact ⟨hacc.1, hacc.2⟩

theorem border_row_cfg {g g' : GridInfo} {v : ℤ} (h : border_row g v = some g') :
    gridCfg g' = gridCfg g := by
  simp only [border_row] at h
  repeat' split at h
  all_goals
    first
      | exact Option.noConfusion h
      | (rw [← Option.some.inj h]; rfl)

theorem draw_grid_border_cfg {g g' : GridInfo} (h : draw_grid_border g = some g') :
    gridCfg g' = gridCfg g := by
  unfold draw_grid_border at h
  have key := foldl_inv (fun og => ∀ h', og = some h' → gridCfg h' = gridCfg g)
    (fun og (v : ℕ) => og.bind (fun g'' => border_row g'' (v : ℤ))) ?_
    (List.range g.vdiv.toNat) (some g) ?_
  · exact key g' h
  · intro og a hog h' heq
    obtain ⟨x, hx, hbx⟩ := Option.bind_eq_some.1 heq
    rw [border_row_cfg hbx, hog x hx]
  · intro h' heq
    rw [← Option.some.inj heq]

theorem binFrame_congr {d d' : KinradarData} (buf : ℤ → ℕ)
    (hl : d'.depth_lut = d.depth_lut) (ht : d'.ytop = d.ytop)
    (hb : d'.ybot = d.ybot)
    (hx : clear_grid d'.xgrid = clear_grid d.xgrid)
    (hy : clear_grid d'.ygrid = clear_grid d.ygrid) :
    binFrame d' buf = binFrame d buf := by
  unfold binFrame
  rw [hl, ht, hb, hx, hy]

/-- C8: a second depth tick on the same frame reproduces the first tick
exactly: the binning output is identical (oor_total included), and the
resulting state differs from the state after the first tick only in the frame
counter, so grid contents, popmax values and the out-of-range flag are
identical. -/
theorem depth_tick_idempotent (d : KinradarData) (buf : ℤ → ℕ)
    (d1 : KinradarData) (h : depth d buf = some d1) :
    binFrame d1 buf = binFrame d buf
    ∧ depth d1 buf = some { d1 with frame := d1.frame + 1 } := by
  obtain ⟨xg, yg, hbx, hby, rfl⟩ := depth_some_elim h
  have hcx : gridCfg xg = gridCfg d.xgrid :=
    (draw_grid_border_cfg hbx).trans (binFrame_cfg d buf).1
  have hcy : gridCfg yg = gridCfg d.ygrid :=
    (draw_grid_border_cfg hby).trans (binFrame_cfg d buf).2
  have hbin : binFrame (depth_result d buf xg yg) buf = binFrame d buf :=
    binFrame_congr buf rfl rfl rfl (clear_grid_congr hcx) (clear_grid_congr hcy)
  refine ⟨hbin, ?_⟩
  simp only [depth]
  rw [hbin, hbx, hby]
  rfl

/-- C8 witness on a concrete session: the second tick on the same frame
only bumps the frame counter. -/
theorem depth_tick_idempotent_witness :
    binFrame W8d1 W8buf = binFrame W8d W8buf
    ∧ depth W8d1 W8buf = some { W8d1 with frame := W8d1.frame + 1 } :=
  depth_tick_idempotent W8d W8buf W8d1 (by with_unfolding_all rfl)

end Kinradar
